import Mathlib

/-!
Shallow embedding of the order-fulfillment core of the
`hexagonal_architecture` repository.

Python sources embedded here:
- `src/domain/value_objects/order_status.py`
- `src/domain/entities/order_item.py`
- `src/domain/entities/product.py`
- `src/domain/entities/order.py`
- `src/infrastructure/adapters/external_services/mock_inventory_service.py`
- `src/infrastructure/adapters/persistence/in_memory_order_repository.py`
- `src/application/use_cases/order_service.py`

Modelling conventions:
- Python `float` prices are modelled as rationals; `round(x, 2)` is modelled
  by `round2`, which implements round-half-to-even on the exact rational value.
- Python `dict` objects are modelled as association lists with distinct keys,
  built by `dinsert`, which updates an existing key in place and otherwise
  appends, matching dict insertion-order semantics.
- Methods that raise exceptions are modelled as `Option`/`Except` results;
  mutation happens by returning an updated value.
- `datetime.now()` is modelled by an explicit `now : Nat` argument, and
  generated UUIDs by an explicit `fresh : String` argument.
- The mock payment gateway is random; service operations that call it take
  the payment outcome as an explicit boolean argument.
-/

namespace Hex

/-- Lookup in an association list keyed by strings. -/
def lookupA {α : Type} : List (String × α) → String → Option α
  | [], _ => none
  | (k, v) :: rest, key => if k = key then some v else lookupA rest key

/-- Python dict assignment `d[k] = v`: update the first occurrence of the key
in place, otherwise append the new binding at the end. -/
def dinsert {α : Type} : List (String × α) → String → α → List (String × α)
  | [], key, v => [(key, v)]
  | (k, w) :: rest, key, v =>
      if k = key then (k, v) :: rest else (k, w) :: dinsert rest key v

/-- The keys of an association list. -/
def keysA {α : Type} (m : List (String × α)) : List String :=
  m.map Prod.fst

/-- `src/domain/value_objects/order_status.py`, class OrderStatus. -/
inductive OrderStatus : Type
  | pending
  | confirmed
  | preparing
  | ready
  | delivered
  | cancelled
  deriving DecidableEq, Repr

/-- Python `round(x, 2)` on the exact rational value: round half to even at
two decimal places. -/
def round2 (x : ℚ) : ℚ :=
  let n : ℚ := 100 * x
  let f : ℤ := ⌊n⌋
  if n - f < 1 / 2 then (f : ℚ) / 100
  else if n - f > 1 / 2 then ((f : ℚ) + 1) / 100
  else if f % 2 = 0 then (f : ℚ) / 100 else ((f : ℚ) + 1) / 100

/-- `src/domain/entities/order_item.py`, dataclass OrderItem (after
`__post_init__` has run). -/
structure OrderItem : Type where
  product_id : String
  product_name : String
  quantity : ℤ
  unit_price : ℚ
  deriving DecidableEq, Repr

namespace OrderItem

/-- MIN_QUANTITY constant. -/
def MIN_QUANTITY : ℤ := 1

/-- MAX_QUANTITY constant. -/
def MAX_QUANTITY : ℤ := 99

/-- MIN_UNIT_PRICE constant. -/
def MIN_UNIT_PRICE : ℚ := 1 / 100

/-- MAX_DISCOUNT_PERCENTAGE constant. -/
def MAX_DISCOUNT_PERCENTAGE : ℚ := 50

/-- OrderItem construction: `__post_init__` runs `_validate_order_item`
(raising ValueError on bad data, modelled as `none`) and then
`_normalize_data` (strips the product name). -/
def build (product_id product_name : String) (quantity : ℤ) (unit_price : ℚ) :
    Option OrderItem :=
  if product_id = "" then none
  else if product_name = "" then none
  else if quantity < MIN_QUANTITY then none
  else if quantity > MAX_QUANTITY then none
  else if unit_price < MIN_UNIT_PRICE then none
  else some ⟨product_id, product_name.trim, quantity, unit_price⟩

/-- Property `total_price`: round(quantity * unit_price, 2). -/
def total_price (it : OrderItem) : ℚ :=
  round2 (it.quantity * it.unit_price)

/-- Method `update_quantity`: validates the new quantity against the same
bounds and sets it; ValueError is modelled as `none`. -/
def update_quantity (it : OrderItem) (new_quantity : ℤ) : Option OrderItem :=
  if new_quantity < MIN_QUANTITY then none
  else if new_quantity > MAX_QUANTITY then none
  else some { it with quantity := new_quantity }

/-- Method `apply_discount`: rejects percentages outside [0, 50], otherwise
discounts the unit price, clamps at the minimum unit price, and rounds to two
decimals. -/
def apply_discount (it : OrderItem) (discount_percentage : ℚ) :
    Option OrderItem :=
  if discount_percentage < 0 then none
  else if discount_percentage > MAX_DISCOUNT_PERCENTAGE then none
  else
    let discount_amount := it.unit_price * (discount_percentage / 100)
    let new_price := it.unit_price - discount_amount
    let clamped := if new_price < MIN_UNIT_PRICE then MIN_UNIT_PRICE else new_price
    some { it with unit_price := round2 clamped }

/-- Method `can_apply_discount`: checks the percentage range and whether the
unclamped discounted price stays at or above the minimum unit price, without
mutating the item. -/
def can_apply_discount (it : OrderItem) (discount_percentage : ℚ) : Bool :=
  if discount_percentage < 0 ∨ discount_percentage > MAX_DISCOUNT_PERCENTAGE then
    false
  else
    let discount_amount := it.unit_price * (discount_percentage / 100)
    let new_price := it.unit_price - discount_amount
    decide (new_price ≥ MIN_UNIT_PRICE)

end OrderItem

/-- `src/domain/entities/product.py`, dataclass Product (fields the workflow
reads; description and category are irrelevant to the claims). -/
structure Product : Type where
  id : String
  name : String
  price : ℚ
  available : Bool
  deriving DecidableEq, Repr

/-- DEFAULT_INVENTORY_LEVEL constant of Product. -/
def DEFAULT_INVENTORY_LEVEL : ℤ := 100

/-- `src/domain/entities/order.py`, dataclass Order (after `__post_init__`
has run). Timestamps are abstract clock readings. -/
structure Order : Type where
  id : String
  customer_id : String
  items : List OrderItem
  status : OrderStatus
  created_at : Nat
  updated_at : Nat
  notes : Option String
  deriving DecidableEq, Repr

namespace Order

/-- MAX_ITEMS_PER_ORDER constant. -/
def MAX_ITEMS_PER_ORDER : ℕ := 50

/-- Property `total_amount`: sum of the items' total prices. -/
def total_amount (o : Order) : ℚ :=
  (o.items.map OrderItem.total_price).sum

/-- Method `_is_valid_status_transition`: the transition table. -/
def is_valid_status_transition (current new : OrderStatus) : Bool :=
  match current with
  | .pending => new = .confirmed ∨ new = .cancelled
  | .confirmed => new = .preparing ∨ new = .cancelled
  | .preparing => new = .ready ∨ new = .cancelled
  | .ready => new = .delivered
  | .delivered => false
  | .cancelled => false

/-- Method `update_status`: raises ValueError (modelled as `none`) when the
transition is not allowed, otherwise sets the status and the update time. -/
def update_status (o : Order) (new_status : OrderStatus) (now : Nat) :
    Option Order :=
  if is_valid_status_transition o.status new_status then
    some { o with status := new_status, updated_at := now }
  else none

/-- Method `can_be_cancelled`: only PENDING and CONFIRMED orders. -/
def can_be_cancelled (o : Order) : Bool :=
  o.status = .pending ∨ o.status = .confirmed

/-- Method `cancel`: raises unless the order can be cancelled, then performs
the CANCELLED transition. -/
def cancel (o : Order) (now : Nat) : Option Order :=
  if o.can_be_cancelled then o.update_status .cancelled now else none

/-- Helper `_find_item_by_product_id`: the first item with the product id. -/
def find_item_by_product_id (o : Order) (product_id : String) :
    Option OrderItem :=
  o.items.find? (fun it => it.product_id = product_id)

/-- Replace the quantity of the first item whose product id matches, as the
in-place `existing_item.update_quantity` mutation does. -/
def setFirstQuantity : List OrderItem → String → ℤ → List OrderItem
  | [], _, _ => []
  | it :: rest, pid, q =>
      if it.product_id = pid then { it with quantity := q } :: rest
      else it :: setFirstQuantity rest pid q

/-- Method `add_item`: only PENDING orders and available products; an item for
the same product merges quantities via `update_quantity`, otherwise a new
OrderItem is constructed and appended. Any ValueError is modelled as `none`,
in which case the order is unchanged. -/
def add_item (o : Order) (product : Product) (quantity : ℤ) (now : Nat) :
    Option Order :=
  if o.status ≠ .pending then none
  else if product.available = false then none
  else
    match o.find_item_by_product_id product.id with
    | some existing =>
        match existing.update_quantity (existing.quantity + quantity) with
        | none => none
        | some _ =>
            some { o with
                     items := setFirstQuantity o.items product.id
                       (existing.quantity + quantity),
                     updated_at := now }
    | none =>
        match OrderItem.build product.id product.name quantity product.price with
        | none => none
        | some item =>
            some { o with items := o.items ++ [item], updated_at := now }

/-- Method `remove_item`: only PENDING orders; filters out every item with
the product id. -/
def remove_item (o : Order) (product_id : String) (now : Nat) : Option Order :=
  if o.status ≠ .pending then none
  else
    some { o with
             items := o.items.filter (fun it => it.product_id ≠ product_id),
             updated_at := now }

end Order

/-- Inventory state of MockInventoryService: the `_inventory` dict. A missing
key means the product sits at the default inventory level. -/
abbrev Inventory : Type := List (String × ℤ)

/-- The available quantity of a product: the dict value, defaulting to
DEFAULT_INVENTORY_LEVEL, as in `check_product_availability`,
`reserve_products`, `release_products` and `get_available_quantity`. -/
def getQty (inv : Inventory) (product_id : String) : ℤ :=
  (lookupA inv product_id).getD DEFAULT_INVENTORY_LEVEL

/-- Write an inventory level: the dict assignment in the mock service. -/
def setQty (inv : Inventory) (product_id : String) (q : ℤ) : Inventory :=
  dinsert inv product_id q

/-- Method `check_product_availability` of MockInventoryService. -/
def check_product_availability (inv : Inventory) (product_id : String)
    (quantity : ℤ) : Bool :=
  getQty inv product_id ≥ quantity

/-- Method `reserve_products` of MockInventoryService: first check every
entry against the current inventory, and only if all pass decrement each
entry; returns the success flag and the updated inventory. -/
def reserve_products (inv : Inventory) (pq : List (String × ℤ)) :
    Bool × Inventory :=
  if pq.all (fun kv => getQty inv kv.1 ≥ kv.2) then
    (true, pq.foldl (fun i kv => setQty i kv.1 (getQty i kv.1 - kv.2)) inv)
  else (false, inv)

/-- Method `release_products` of MockInventoryService: unconditionally add
each entry back; always reports success. -/
def release_products (inv : Inventory) (pq : List (String × ℤ)) :
    Bool × Inventory :=
  (true, pq.foldl (fun i kv => setQty i kv.1 (getQty i kv.1 + kv.2)) inv)

/-- Notifications sent through the NotificationService port, recorded as an
event log. -/
inductive Notif : Type
  | orderConfirmation (order_id : String)
  | statusUpdate (order_id : String)
  | delivery (order_id : String)
  | orderCancelled (order_id : String)
  deriving DecidableEq, Repr

/-- The mutable state the OrderService runs against: the in-memory order
repository, the set of existing customer ids, the in-memory product
repository (keyed by the id under which the product was saved), the mock
inventory, and the log of notifications sent. -/
structure SysState : Type where
  orders : List (String × Order)
  customers : List String
  products : List (String × Product)
  inventory : Inventory
  notifs : List Notif
  deriving Repr

/-- Save an order in the in-memory order repository: `_orders[order.id] =
order`. -/
def saveOrder (orders : List (String × Order)) (o : Order) :
    List (String × Order) :=
  dinsert orders o.id o

/-- The dict comprehension `\x7bitem.product_id: item.quantity for item in
order.items\x7d` used by `confirm_order` and `update_order_status`; a
duplicated product id keeps the last quantity only. -/
def itemsDict (items : List OrderItem) : List (String × ℤ) :=
  items.foldl (fun m it => dinsert m it.product_id it.quantity) []

/-- The per-line validation loop of `OrderService.create_order`: resolve the
product (the line fails if it is missing or unavailable), reject non-positive
quantities, check inventory availability, construct the snapshot OrderItem
(whose own validation may raise), and record the quantity in the
`product_quantities` dict, where a repeated product id overwrites the
previous quantity. -/
def buildLines (s : SysState) :
    List (String × ℤ) → List OrderItem → List (String × ℤ) →
    Except String (List OrderItem × List (String × ℤ))
  | [], acc, pq => .ok (acc, pq)
  | (pid, qty) :: rest, acc, pq =>
      match lookupA s.products pid with
      | none => .error "Product not available"
      | some product =>
          if product.available = false then .error "Product not available"
          else if qty ≤ 0 then .error "Quantity must be positive"
          else if check_product_availability s.inventory product.id qty = false
          then .error "Insufficient inventory"
          else
            match OrderItem.build product.id product.name qty product.price with
            | none => .error "Invalid order item"
            | some item =>
                buildLines s rest (acc ++ [item]) (dinsert pq product.id qty)

/-- Method `OrderService.create_order`. Raised ValueErrors are modelled as
`Except.error`; `now` is the current time and `fresh` the generated order id.
After a successful reservation, a failure of the Order constructor validation
releases the reservation before the error propagates. -/
def create_order (s : SysState) (customer_id : String)
    (lines : List (String × ℤ)) (notes : Option String) (now : Nat)
    (fresh : String) : SysState × Except String Order :=
  if customer_id ∈ s.customers then
    if lines.isEmpty then (s, .error "Order must have at least one item")
    else
      match buildLines s lines [] [] with
      | .error e => (s, .error e)
      | .ok (order_items, pq) =>
          let rr := reserve_products s.inventory pq
          if rr.1 = false then (s, .error "Failed to reserve inventory")
          else
            if customer_id = "" ∨ order_items.length > Order.MAX_ITEMS_PER_ORDER
            then
              let inv2 := (release_products rr.2 pq).2
              ({ s with inventory := inv2 }, .error "Invalid order")
            else
              let order : Order :=
                ⟨fresh, customer_id, order_items, .pending, now, now, notes⟩
              ({ s with
                   inventory := rr.2,
                   orders := saveOrder s.orders order }, .ok order)
  else (s, .error "Customer not found")

/-- Method `OrderService.confirm_order`, with the payment outcome passed in
for the random mock gateway. On payment failure the item quantities are
released and False is returned; on success the order moves to CONFIRMED, is
saved, and a confirmation notification is sent. -/
def confirm_order (s : SysState) (order_id : String) (pay_success : Bool)
    (now : Nat) : SysState × Except String Bool :=
  match lookupA s.orders order_id with
  | none => (s, .error "Order not found")
  | some order =>
      if order.status ≠ .pending then (s, .error "Order is not in pending status")
      else if order.customer_id ∈ s.customers then
        if pay_success = false then
          let inv1 := (release_products s.inventory (itemsDict order.items)).2
          ({ s with inventory := inv1 }, .ok false)
        else
          match order.update_status .confirmed now with
          | none => (s, .error "Invalid status transition")
          | some o2 =>
              ({ s with
                   orders := saveOrder s.orders o2,
                   notifs := s.notifs ++ [.orderConfirmation o2.id] },
               .ok true)
      else (s, .error "Customer not found")

/-- Method `OrderService.update_order_status`: load order and customer, apply
the status transition (a ValueError is re-raised as an error), save, send the
status-update notification, then the delivery or cancellation extras; a
cancellation from PENDING or CONFIRMED also releases the item quantities. -/
def update_order_status (s : SysState) (order_id : String)
    (new_status : OrderStatus) (now : Nat) : SysState × Except String Bool :=
  match lookupA s.orders order_id with
  | none => (s, .error "Order not found")
  | some order =>
      if order.customer_id ∈ s.customers then
        let old_status := order.status
        match order.update_status new_status now with
        | none => (s, .error "Failed to update order status")
        | some o2 =>
            let s1 := { s with orders := saveOrder s.orders o2 }
            let s2 := { s1 with notifs := s1.notifs ++ [.statusUpdate o2.id] }
            let s3 :=
              if new_status = .delivered then
                { s2 with notifs := s2.notifs ++ [.delivery o2.id] }
              else s2
            if new_status = .cancelled then
              let s4 := { s3 with notifs := s3.notifs ++ [.orderCancelled o2.id] }
              if old_status = .pending ∨ old_status = .confirmed then
                let inv1 :=
                  (release_products s4.inventory (itemsDict o2.items)).2
                ({ s4 with inventory := inv1 }, .ok true)
              else (s4, .ok true)
            else (s3, .ok true)
      else (s, .error "Customer not found")

/-- Method `OrderService.cancel_order`: a missing order returns False; inside
the try block the order is first cancelled and saved through the entity, and
the call then delegates to `update_order_status` with CANCELLED; any
exception makes the call return False, keeping the state changes already
made. -/
def cancel_order (s : SysState) (order_id : String) (now : Nat) :
    SysState × Bool :=
  match lookupA s.orders order_id with
  | none => (s, false)
  | some order =>
      if order.can_be_cancelled = false then (s, false)
      else
        match order.cancel now with
        | none => (s, false)
        | some o2 =>
            let s1 := { s with orders := saveOrder s.orders o2 }
            match update_order_status s1 order_id .cancelled now with
            | (s2, .ok b) => (s2, b)
            | (s2, .error _) => (s2, false)

/-- Method `OrderService.add_item_to_order`: missing order or product returns
False; then inside the try block the availability check and the reservation
run, and only afterwards is the order mutated; an exception from the mutation
is swallowed into False with no release of the reservation just made. -/
def add_item_to_order (s : SysState) (order_id product_id : String)
    (quantity : ℤ) (now : Nat) : SysState × Bool :=
  match lookupA s.orders order_id with
  | none => (s, false)
  | some order =>
      match lookupA s.products product_id with
      | none => (s, false)
      | some product =>
          if check_product_availability s.inventory product_id quantity = false
          then (s, false)
          else
            let rr := reserve_products s.inventory [(product_id, quantity)]
            if rr.1 = false then (s, false)
            else
              let s1 := { s with inventory := rr.2 }
              match order.add_item product quantity now with
              | none => (s1, false)
              | some o2 =>
                  ({ s1 with orders := saveOrder s1.orders o2 }, true)

/-- Method `OrderService.remove_item_from_order`: missing order or item
returns False; otherwise the order is mutated and saved, and the removed
quantity is released. -/
def remove_item_from_order (s : SysState) (order_id product_id : String)
    (now : Nat) : SysState × Bool :=
  match lookupA s.orders order_id with
  | none => (s, false)
  | some order =>
      match order.items.find? (fun it => it.product_id = product_id) with
      | none => (s, false)
      | some item =>
          match order.remove_item product_id now with
          | none => (s, false)
          | some o2 =>
              let s1 := { s with orders := saveOrder s.orders o2 }
              let inv1 :=
                (release_products s1.inventory [(product_id, item.quantity)]).2
              ({ s1 with inventory := inv1 }, true)

/-- Iterate `confirm_order` with a failing payment n times on the same order
id, keeping the evolving state. -/
def confirmFailN (oid : String) (now : Nat) : SysState → Nat → SysState
  | s, 0 => s
  | s, n + 1 => confirmFailN oid now (confirm_order s oid false now).1 n

/-- A line of a `create_order` request that fails its availability checks:
the product is missing, marked unavailable, or lacks sufficient inventory. -/
def lineFails (s : SysState) (l : String × ℤ) : Prop :=
  match lookupA s.products l.1 with
  | none => True
  | some p => p.available = false ∨ getQty s.inventory p.id < l.2

/-- A line of a `create_order` request that passes every per-line check,
including the snapshot OrderItem construction. -/
def linePasses (s : SysState) (l : String × ℤ) : Prop :=
  ∃ p, lookupA s.products l.1 = some p ∧ p.available = true ∧ 0 < l.2 ∧
    l.2 ≤ 99 ∧ p.id ≠ "" ∧ p.name ≠ "" ∧ OrderItem.MIN_UNIT_PRICE ≤ p.price ∧
    l.2 ≤ getQty s.inventory p.id

/-- The transition table as written in section 4.1 of the spec, for
comparison with the transition predicate embedded from the code. -/
def specTransitionTable : OrderStatus → List OrderStatus
  | .pending => [.confirmed, .cancelled]
  | .confirmed => [.preparing, .cancelled]
  | .preparing => [.ready, .cancelled]
  | .ready => [.delivered]
  | .delivered => []
  | .cancelled => []

/-- Example item: quantity 2 at unit price 12.99. -/
def itemW1 : OrderItem := ⟨"p1", "n1", 2, 1299 / 100⟩

/-- Example item: quantity 1 at unit price 10.50. -/
def itemW2 : OrderItem := ⟨"p2", "n2", 1, 1050 / 100⟩

/-- Example pending order holding the two example items. -/
def orderW : Order := ⟨"o1", "c1", [itemW1, itemW2], .pending, 0, 0, none⟩

/-- Example product matching itemW1. -/
def productW1 : Product := ⟨"p1", "n1", 1299 / 100, true⟩

/-- Example product matching itemW2. -/
def productW2 : Product := ⟨"p2", "n2", 1050 / 100, true⟩

/-- Example system state: one pending order, its customer, both products,
inventory at the default level, no notifications sent. -/
def stateW : SysState :=
  ⟨[("o1", orderW)], ["c1"], [("p1", productW1), ("p2", productW2)], [], []⟩

/-- Example order in CONFIRMED status, for the add-item claims. -/
def orderX : Order := ⟨"o2", "c1", [itemW1], .confirmed, 0, 0, none⟩

/-- Example state whose only order is already CONFIRMED. -/
def stateX : SysState :=
  ⟨[("o2", orderX)], ["c1"], [("p1", productW1)], [], []⟩

/-- Order produced by creating the Scenario A request in `stateW` at time 7
with generated id onew. -/
def orderC1 : Order :=
  ⟨"onew", "c1",
    [⟨"p1", "n1".trim, 2, 1299 / 100⟩, ⟨"p2", "n2".trim, 1, 1050 / 100⟩],
    .pending, 7, 7, none⟩

/-- State after creating the Scenario A request in `stateW`: the new order is
stored and both products are reserved. -/
def stateC1 : SysState :=
  ⟨[("o1", orderW), ("onew", orderC1)], ["c1"],
    [("p1", productW1), ("p2", productW2)], [("p1", 98), ("p2", 99)], []⟩

/-- Order produced by creating a single-line request for p1 in `stateW`. -/
def orderC2 : Order :=
  ⟨"onew", "c1", [⟨"p1", "n1".trim, 2, 1299 / 100⟩], .pending, 7, 7, none⟩

/-- State after creating the single-line request for p1 in `stateW`. -/
def stateC2 : SysState :=
  ⟨[("o1", orderW), ("onew", orderC2)], ["c1"],
    [("p1", productW1), ("p2", productW2)], [("p1", 98)], []⟩

section AssocLemmas

theorem lookupA_dinsert {α : Type} (m : List (String × α)) (k key : String)
    (v : α) :
    lookupA (dinsert m k v) key = if k = key then some v else lookupA m key := by
  induction m with
  | nil => simp [dinsert, lookupA]
  | cons hd tl ih =>
      obtain ⟨k', w⟩ := hd
      by_cases hk : k' = k
      · subst hk
        by_cases hkey : k' = key <;> simp [dinsert, lookupA, hkey]
      · by_cases hkey : k' = key
        · subst hkey
          simp [dinsert, lookupA, hk, Ne.symm hk]
        · simp [dinsert, lookupA, hk, hkey, ih]

theorem keysA_dinsert_mem {α : Type} (m : List (String × α)) (k : String)
    (v : α) (h : k ∈ keysA m) : keysA (dinsert m k v) = keysA m := by
  induction m with
  | nil => simp [keysA] at h
  | cons hd tl ih =>
      obtain ⟨k', w⟩ := hd
      by_cases hk : k' = k
      · subst hk
        simp [dinsert, keysA]
      · have htl : k ∈ keysA tl := by
          rcases (by simpa [keysA] using h : k = k' ∨ k ∈ keysA tl) with h1 | h1
          · exact absurd h1.symm hk
          · exact h1
        simp [dinsert, hk, keysA, show List.map Prod.fst (dinsert tl k v) =
          List.map Prod.fst tl from ih htl]

theorem lookupA_eq_none_of_not_mem {α : Type} (m : List (String × α))
    (key : String) (h : key ∉ keysA m) : lookupA m key = none := by
  induction m with
  | nil => simp [lookupA]
  | cons hd tl ih =>
      obtain ⟨k', w⟩ := hd
      simp only [keysA, List.map_cons, List.mem_cons] at h
      push_neg at h
      have h1 : ¬k' = key := fun hq => h.1 hq.symm
      simp [lookupA, h1, ih (by simpa [keysA] using h.2)]

theorem dinsert_eq_append_of_not_mem {α : Type} (m : List (String × α))
    (k : String) (v : α) (h : k ∉ keysA m) : dinsert m k v = m ++ [(k, v)] := by
  induction m with
  | nil => simp [dinsert]
  | cons hd tl ih =>
      obtain ⟨k', w⟩ := hd
      simp only [keysA, List.map_cons, List.mem_cons] at h
      push_neg at h
      have h1 : ¬k' = k := fun hq => h.1 hq.symm
      simp [dinsert, h1, ih (by simpa [keysA] using h.2)]

theorem nodup_keysA_dinsert {α : Type} (m : List (String × α)) (k : String)
    (v : α) (h : (keysA m).Nodup) : (keysA (dinsert m k v)).Nodup := by
  by_cases hmem : k ∈ keysA m
  · rw [keysA_dinsert_mem m k v hmem]; exact h
  · rw [dinsert_eq_append_of_not_mem m k v hmem]
    have : keysA (m ++ [(k, v)]) = keysA m ++ [k] := by simp [keysA]
    rw [this]
    refine List.Nodup.append h (List.nodup_singleton k) ?_
    intro a ha hb
    simp only [List.mem_singleton] at hb
    exact hmem (hb ▸ ha)

theorem foldl_dinsert_nodup (L : List (String × ℤ)) :
    ∀ (pq : List (String × ℤ)), (L.map Prod.fst).Nodup →
      (∀ k ∈ L.map Prod.fst, k ∉ keysA pq) →
      L.foldl (fun m kv => dinsert m kv.1 kv.2) pq = pq ++ L := by
  induction L with
  | nil => intro pq _ _; simp
  | cons hd tl ih =>
      intro pq hnd hdisj
      obtain ⟨k, v⟩ := hd
      simp only [List.map_cons, List.nodup_cons] at hnd
      have hk : k ∉ keysA pq := hdisj k (by simp)
      have step : dinsert pq k v = pq ++ [(k, v)] :=
        dinsert_eq_append_of_not_mem pq k v hk
      simp only [List.foldl_cons, step]
      rw [ih (pq ++ [(k, v)]) hnd.2 ?_]
      · simp
      · intro k' hk' hmem
        have : k' ∈ keysA pq ∨ k' = k := by
          simpa [keysA] using hmem
        rcases this with h1 | h1
        · exact hdisj k' (by simp [hk']) h1
        · exact hnd.1 (h1 ▸ hk')

theorem getQty_setQty (inv : Inventory) (k key : String) (q : ℤ) :
    getQty (setQty inv k q) key = if k = key then q else getQty inv key := by
  unfold getQty setQty
  rw [lookupA_dinsert]
  by_cases h : k = key <;> simp [h]

theorem getQty_foldl_adjust (g : ℤ → ℤ → ℤ) (m : List (String × ℤ)) :
    ∀ (inv : Inventory) (key : String), (keysA m).Nodup →
      getQty (m.foldl (fun i kv => setQty i kv.1 (g (getQty i kv.1) kv.2)) inv)
          key =
        (match lookupA m key with
         | some v => g (getQty inv key) v
         | none => getQty inv key) := by
  induction m with
  | nil => intro inv key _; simp [lookupA]
  | cons hd tl ih =>
      intro inv key hnd
      obtain ⟨k, v⟩ := hd
      simp only [keysA, List.map_cons, List.nodup_cons] at hnd
      by_cases hk : k = key
      · subst hk
        have htl : lookupA tl k = none :=
          lookupA_eq_none_of_not_mem tl k (by simpa [keysA] using hnd.1)
        simp only [List.foldl_cons, lookupA, if_pos rfl]
        rw [ih _ k (by simpa [keysA] using hnd.2), htl]
        simp [getQty_setQty]
      · simp only [List.foldl_cons, lookupA, if_neg hk]
        rw [ih _ key (by simpa [keysA] using hnd.2)]
        have : getQty (setQty inv k (g (getQty inv k) v)) key = getQty inv key := by
          simp [getQty_setQty, hk]
        rw [this]

theorem getQty_release (inv : Inventory) (m : List (String × ℤ)) (key : String)
    (hnd : (keysA m).Nodup) :
    getQty (release_products inv m).2 key =
      getQty inv key + (lookupA m key).getD 0 := by
  unfold release_products
  rw [getQty_foldl_adjust (· + ·) m inv key hnd]
  cases h : lookupA m key <;> simp

theorem getQty_reserve_of_all (inv : Inventory) (m : List (String × ℤ))
    (key : String) (hnd : (keysA m).Nodup)
    (hall : m.all (fun kv => getQty inv kv.1 ≥ kv.2) = true) :
    getQty (reserve_products inv m).2 key =
      getQty inv key - (lookupA m key).getD 0 := by
  unfold reserve_products
  rw [if_pos hall]
  rw [getQty_foldl_adjust (· - ·) m inv key hnd]
  cases h : lookupA m key <;> simp

theorem nodup_keysA_foldl_dinsert {α : Type} (L : List α)
    (f : α → String) (g : α → ℤ) :
    ∀ (pq : List (String × ℤ)), (keysA pq).Nodup →
      (keysA (L.foldl (fun m x => dinsert m (f x) (g x)) pq)).Nodup := by
  induction L with
  | nil => intro pq h; simpa using h
  | cons hd tl ih =>
      intro pq h
      exact ih _ (nodup_keysA_dinsert pq (f hd) (g hd) h)

theorem nodup_keysA_itemsDict (items : List OrderItem) :
    (keysA (itemsDict items)).Nodup := by
  unfold itemsDict
  exact nodup_keysA_foldl_dinsert items (fun it => it.product_id)
    (fun it => it.quantity) [] (by simp [keysA])

end AssocLemmas

section ServiceLemmas

theorem lookupA_mem_nodup {α : Type} (L : List (String × α)) (k : String)
    (v : α) (hnd : (keysA L).Nodup) (hmem : (k, v) ∈ L) :
    lookupA L k = some v := by
  induction L with
  | nil => simp at hmem
  | cons hd tl ih =>
      obtain ⟨k', v'⟩ := hd
      simp only [keysA, List.map_cons, List.nodup_cons] at hnd
      rcases List.mem_cons.1 hmem with h1 | h1
      · injection h1 with h2 h3
        subst h2
        subst h3
        simp [lookupA]
      · have hk : ¬k' = k := by
          intro hq
          subst hq
          exact hnd.1 (by simpa [keysA] using List.mem_map_of_mem Prod.fst h1)
        simp [lookupA, hk, ih (by simpa [keysA] using hnd.2) h1]

theorem build_eq_some (pid pname : String) (qty : ℤ) (price : ℚ)
    (it : OrderItem) (h : OrderItem.build pid pname qty price = some it) :
    it = ⟨pid, pname.trim, qty, price⟩ ∧ pid ≠ "" ∧ pname ≠ "" ∧
      1 ≤ qty ∧ qty ≤ 99 ∧ OrderItem.MIN_UNIT_PRICE ≤ price := by
  unfold OrderItem.build at h
  split_ifs at h with h1 h2 h3 h4 h5
  injection h with h6
  refine ⟨h6.symm, h1, h2, ?_, ?_, not_lt.1 h5⟩
  · have := not_lt.1 h3
    simpa [OrderItem.MIN_QUANTITY] using this
  · have := not_lt.1 h4
    simpa [OrderItem.MAX_QUANTITY] using this

theorem build_pass (pid pname : String) (qty : ℤ) (price : ℚ)
    (h1 : pid ≠ "") (h2 : pname ≠ "") (h3 : 0 < qty) (h4 : qty ≤ 99)
    (h5 : OrderItem.MIN_UNIT_PRICE ≤ price) :
    OrderItem.build pid pname qty price = some ⟨pid, pname.trim, qty, price⟩ := by
  unfold OrderItem.build
  rw [if_neg h1, if_neg h2,
    if_neg (show ¬qty < OrderItem.MIN_QUANTITY by
      simp only [OrderItem.MIN_QUANTITY]; omega),
    if_neg (show ¬qty > OrderItem.MAX_QUANTITY by
      simp only [OrderItem.MAX_QUANTITY]; omega),
    if_neg (not_lt.2 h5)]

theorem buildLines_ok_inv (s : SysState) (lines : List (String × ℤ)) :
    ∀ acc pq items pqf, buildLines s lines acc pq = .ok (items, pqf) →
      ∃ nw, items = acc ++ nw ∧
        pqf = nw.foldl (fun m it => dinsert m it.product_id it.quantity) pq := by
  induction lines with
  | nil =>
      intro acc pq items pqf h
      simp only [buildLines, Except.ok.injEq, Prod.mk.injEq] at h
      exact ⟨[], by simp [h.1.symm], by simp [h.2.symm]⟩
  | cons hd tl ih =>
      intro acc pq items pqf h
      obtain ⟨pid, qty⟩ := hd
      simp only [buildLines] at h
      split at h
      · exact absurd h (by simp)
      · rename_i product hp
        split_ifs at h with h1 h2 h3
        split at h
        · exact absurd h (by simp)
        · rename_i item hb
          obtain ⟨nw, hnw1, hnw2⟩ := ih _ _ _ _ h
          obtain ⟨hit, -⟩ := build_eq_some _ _ _ _ _ hb
          refine ⟨item :: nw, by simp [hnw1], ?_⟩
          rw [hnw2]
          simp [hit]

theorem buildLines_error_of_fails (s : SysState) (lines : List (String × ℤ))
    (hex : ∃ l ∈ lines, lineFails s l) :
    ∀ acc pq, ∃ e, buildLines s lines acc pq = .error e := by
  induction lines with
  | nil => simp at hex
  | cons hd tl ih =>
      intro acc pq
      obtain ⟨pid, qty⟩ := hd
      cases hp : lookupA s.products pid with
      | none => exact ⟨"Product not available", by simp [buildLines, hp]⟩
      | some product =>
          by_cases h1 : product.available = false
          · exact ⟨"Product not available", by simp [buildLines, hp, h1]⟩
          · by_cases h2 : qty ≤ 0
            · exact ⟨"Quantity must be positive", by
                simp [buildLines, hp, h1, h2]⟩
            · by_cases h3 :
                check_product_availability s.inventory product.id qty = false
              · exact ⟨"Insufficient inventory", by
                  simp only [buildLines, hp]
                  rw [if_neg h1, if_neg h2, if_pos h3]⟩
              · have htl : ∃ l ∈ tl, lineFails s l := by
                  rcases hex with ⟨l, hl, hfail⟩
                  rcases List.mem_cons.1 hl with rfl | hmem
                  · unfold lineFails at hfail
                    rw [hp] at hfail
                    have hfail' : product.available = false ∨
                        getQty s.inventory product.id < qty := hfail
                    rcases hfail' with hf | hf
                    · exact absurd hf h1
                    · exfalso
                      have hchk :
                          check_product_availability s.inventory product.id
                            qty = true := by
                        cases hc :
                          check_product_availability s.inventory product.id qty
                        · exact absurd hc h3
                        · rfl
                      unfold check_product_availability at hchk
                      have hge := of_decide_eq_true hchk
                      omega
                  · exact ⟨l, hmem, hfail⟩
                cases hb : OrderItem.build product.id product.name qty
                    product.price with
                | none => exact ⟨"Invalid order item", by
                    simp only [buildLines, hp]
                    rw [if_neg h1, if_neg h2, if_neg h3, hb]⟩
                | some item =>
                    obtain ⟨e, he⟩ := ih htl (acc ++ [item])
                      (dinsert pq product.id qty)
                    refine ⟨e, ?_⟩
                    simp only [buildLines, hp]
                    rw [if_neg h1, if_neg h2, if_neg h3, hb]
                    exact he

theorem buildLines_all_pass (s : SysState)
    (hkeys : ∀ k p, lookupA s.products k = some p → p.id = k)
    (lines : List (String × ℤ)) (hpass : ∀ l ∈ lines, linePasses s l) :
    ∀ acc pq, ∃ items,
      buildLines s lines acc pq =
        .ok (acc ++ items,
          items.foldl (fun m it => dinsert m it.product_id it.quantity) pq) ∧
      items.map (fun it => (it.product_id, it.quantity)) = lines := by
  induction lines with
  | nil => intro acc pq; exact ⟨[], by simp [buildLines], rfl⟩
  | cons hd tl ih =>
      intro acc pq
      obtain ⟨pid, qty⟩ := hd
      obtain ⟨p, hp, hav, hq0, hq99, hid, hname, hprice, hinv⟩ :=
        hpass (pid, qty) (by simp)
      have hpid : p.id = pid := hkeys pid p hp
      have hchk : check_product_availability s.inventory p.id qty = true := by
        unfold check_product_availability
        exact decide_eq_true (by omega)
      have hbuild := build_pass p.id p.name qty p.price
        (by rw [hpid]; exact fun hc => hid (hpid ▸ hc)) hname hq0 hq99 hprice
      obtain ⟨items, hrec, hmap⟩ :=
        ih (fun l hl => hpass l (List.mem_cons_of_mem _ hl))
          (acc ++ [⟨p.id, p.name.trim, qty, p.price⟩]) (dinsert pq p.id qty)
      refine ⟨⟨p.id, p.name.trim, qty, p.price⟩ :: items, ?_, ?_⟩
      · simp only [buildLines, hp]
        rw [if_neg (by simp [hav]), if_neg (by omega), if_neg (by simp [hchk]),
          hbuild]
        show buildLines s tl (acc ++ [⟨p.id, p.name.trim, qty, p.price⟩])
            (dinsert pq p.id qty) = _
        rw [hrec]
        simp
      · simp [hmap, hpid]

theorem reserve_fst_true (inv : Inventory) (pq : List (String × ℤ))
    (hall : pq.all (fun kv => getQty inv kv.1 ≥ kv.2) = true) :
    (reserve_products inv pq).1 = true := by
  unfold reserve_products
  rw [if_pos hall]

theorem create_order_ok (s : SysState) (cid : String)
    (lines : List (String × ℤ)) (notes : Option String) (now : Nat)
    (fresh : String) (s1 : SysState) (order : Order)
    (h : create_order s cid lines notes now fresh = (s1, .ok order)) :
    cid ∈ s.customers ∧ ¬cid = "" ∧
      ∃ items pq, buildLines s lines [] [] = .ok (items, pq) ∧
        pq.all (fun kv => getQty s.inventory kv.1 ≥ kv.2) = true ∧
        order = ⟨fresh, cid, items, .pending, now, now, notes⟩ ∧
        s1 = { s with inventory := (reserve_products s.inventory pq).2,
                      orders := saveOrder s.orders order } := by
  unfold create_order at h
  by_cases hmem : cid ∈ s.customers
  · rw [if_pos hmem] at h
    by_cases hempty : lines.isEmpty
    · rw [if_pos hempty] at h
      exact absurd h (by simp)
    · rw [if_neg hempty] at h
      split at h
      · exact absurd h (by simp)
      · rename_i items pq hbl
        simp only [] at h
        split_ifs at h with hres hval
        · exact absurd h (by simp)
        · exact absurd h (by simp)
        · push_neg at hval
          injection h with hs ho
          injection ho with ho
          refine ⟨hmem, hval.1, items, pq, hbl, ?_, ho.symm, ?_⟩
          · by_contra hc
            unfold reserve_products at hres
            rw [if_neg hc] at hres
            simp at hres
          · rw [← hs, ho]
  · rw [if_neg hmem] at h
    exact absurd h (by simp)

theorem itemsDict_of_create (s : SysState) (lines : List (String × ℤ))
    (items : List OrderItem) (pq : List (String × ℤ))
    (h : buildLines s lines [] [] = .ok (items, pq)) :
    itemsDict items = pq ∧ (keysA pq).Nodup := by
  obtain ⟨nw, hnw1, hnw2⟩ := buildLines_ok_inv s lines [] [] items pq h
  simp only [List.nil_append] at hnw1
  subst hnw1
  constructor
  · rw [hnw2]; rfl
  · rw [hnw2]
    exact nodup_keysA_foldl_dinsert items _ _ [] (by simp [keysA])

theorem confirm_order_fail_eq (s : SysState) (oid : String) (order : Order)
    (now : Nat) (hord : lookupA s.orders oid = some order)
    (hpend : order.status = .pending)
    (hcust : order.customer_id ∈ s.customers) :
    confirm_order s oid false now =
      ({ s with inventory :=
          (release_products s.inventory (itemsDict order.items)).2 },
        .ok false) := by
  unfold confirm_order
  simp only [hord]
  rw [if_neg (by simp [hpend]), if_pos hcust]
  simp

theorem confirmFailN_inventory :
    ∀ (n : ℕ) (s : SysState) (oid : String) (order : Order) (now : Nat),
      lookupA s.orders oid = some order → order.status = .pending →
      order.customer_id ∈ s.customers →
      ∀ pid, getQty (confirmFailN oid now s n).inventory pid =
        getQty s.inventory pid +
          n * (lookupA (itemsDict order.items) pid).getD 0 := by
  intro n
  induction n with
  | zero =>
      intro s oid order now hord hpend hcust pid
      simp [confirmFailN]
  | succ n ih =>
      intro s oid order now hord hpend hcust pid
      have hconf := confirm_order_fail_eq s oid order now hord hpend hcust
      show getQty
        (confirmFailN oid now (confirm_order s oid false now).1 n).inventory
          pid = _
      rw [hconf]
      show getQty (confirmFailN oid now
        { s with inventory :=
            (release_products s.inventory (itemsDict order.items)).2 }
          n).inventory pid = _
      rw [ih { s with inventory :=
          (release_products s.inventory (itemsDict order.items)).2 }
        oid order now hord hpend hcust pid]
      show getQty (release_products s.inventory (itemsDict order.items)).2 pid
          + n * (lookupA (itemsDict order.items) pid).getD 0 = _
      rw [getQty_release s.inventory (itemsDict order.items) pid
        (nodup_keysA_itemsDict order.items)]
      push_cast
      ring

theorem stateW_products_keyed :
    ∀ k p, lookupA stateW.products k = some p → p.id = k := by
  intro k p hp
  simp only [stateW, lookupA] at hp
  by_cases h1 : "p1" = k
  · rw [if_pos h1] at hp
    injection hp with hp
    rw [← hp, ← h1]
    rfl
  · rw [if_neg h1] at hp
    by_cases h2 : "p2" = k
    · rw [if_pos h2] at hp
      injection hp with hp
      rw [← hp, ← h2]
      rfl
    · rw [if_neg h2] at hp
      exact absurd hp (by simp)

theorem create_eval :
    create_order stateW "c1" [("p1", 2), ("p2", 1)] none 7 "onew" =
      (stateC1, .ok orderC1) := by
  have hq1 : ((1299 / 100 : ℚ) < 100⁻¹) = False := by norm_num
  have hq2 : ((1050 / 100 : ℚ) < 100⁻¹) = False := by norm_num
  simp [create_order, buildLines, OrderItem.build, check_product_availability,
    getQty, setQty, lookupA, dinsert, reserve_products, saveOrder, stateW,
    productW1, productW2, orderW, DEFAULT_INVENTORY_LEVEL,
    OrderItem.MIN_QUANTITY, OrderItem.MAX_QUANTITY, OrderItem.MIN_UNIT_PRICE,
    Order.MAX_ITEMS_PER_ORDER, stateC1, orderC1, hq1, hq2]

theorem create_eval_single :
    create_order stateW "c1" [("p1", 2)] none 7 "onew" =
      (stateC2, .ok orderC2) := by
  have hq1 : ((1299 / 100 : ℚ) < 100⁻¹) = False := by norm_num
  simp [create_order, buildLines, OrderItem.build, check_product_availability,
    getQty, setQty, lookupA, dinsert, reserve_products, saveOrder, stateW,
    productW1, productW2, orderW, DEFAULT_INVENTORY_LEVEL,
    OrderItem.MIN_QUANTITY, OrderItem.MAX_QUANTITY, OrderItem.MIN_UNIT_PRICE,
    Order.MAX_ITEMS_PER_ORDER, stateC2, orderC2, hq1]

end ServiceLemmas

section Claims

theorem valid_transition_iff_spec (a b : OrderStatus) :
    Order.is_valid_status_transition a b = true ↔ b ∈ specTransitionTable a := by
  cases a <;> cases b <;> simp [Order.is_valid_status_transition,
    specTransitionTable]

/-- C5: Order.update_status follows exactly the transition table of section
4.1 of the spec: a pair outside the table fails (the embedded method returns
none, modelling the raised TransitionError before any field is written), and
a pair inside the table succeeds, setting the status and the update
timestamp. -/
theorem update_status_follows_spec_table (o : Order) (new_status : OrderStatus)
    (now : Nat) :
    (new_status ∉ specTransitionTable o.status →
      o.update_status new_status now = none) ∧
    (new_status ∈ specTransitionTable o.status →
      o.update_status new_status now =
        some { o with status := new_status, updated_at := now }) := by
  constructor
  · intro hno
    unfold Order.update_status
    rw [if_neg]
    intro hc
    exact hno ((valid_transition_iff_spec o.status new_status).1 hc)
  · intro hyes
    unfold Order.update_status
    rw [if_pos ((valid_transition_iff_spec o.status new_status).2 hyes)]

/-- Witness for C5 at concrete inputs: PENDING to CONFIRMED succeeds and
bumps the timestamp, PENDING to DELIVERED fails. -/
theorem update_status_follows_spec_table_w :
    Order.update_status orderW .confirmed 5 =
      some { orderW with status := .confirmed, updated_at := 5 } ∧
    Order.update_status orderW .delivered 5 = none :=
  ⟨(update_status_follows_spec_table orderW .confirmed 5).2 (by decide),
   (update_status_follows_spec_table orderW .delivered 5).1 (by decide)⟩

/-- C7 counterexample: at unit price 0.01 and discount 50, apply_discount
succeeds (clamping at the floor) while can_apply_discount returns false, so
can_apply_discount does not return true exactly when apply_discount
succeeds. -/
theorem can_apply_discount_mismatch_cex :
    OrderItem.can_apply_discount ⟨"p", "n", 1, 1 / 100⟩ 50 = false ∧
    (OrderItem.apply_discount ⟨"p", "n", 1, 1 / 100⟩ 50).isSome = true := by
  constructor
  · norm_num [OrderItem.can_apply_discount, OrderItem.MAX_DISCOUNT_PERCENTAGE,
      OrderItem.MIN_UNIT_PRICE]
  · norm_num [OrderItem.apply_discount, OrderItem.MAX_DISCOUNT_PERCENTAGE,
      OrderItem.MIN_UNIT_PRICE]

/-- C7 (amended): apply_discount fails exactly when the percentage is outside
[0, 50] and otherwise sets the unit price to the clamped, rounded discounted
price; can_apply_discount returns true exactly when the percentage is in
range and the unclamped discounted price stays at or above the 0.01 floor,
which is sufficient but not necessary for apply_discount to succeed. -/
theorem apply_discount_spec (it : OrderItem) (pct : ℚ) :
    (it.apply_discount pct = none ↔ (pct < 0 ∨ pct > 50)) ∧
    (0 ≤ pct → pct ≤ 50 →
      it.apply_discount pct =
        some { it with
          unit_price := round2 (max (it.unit_price * (1 - pct / 100)) (1 / 100)) }) ∧
    (it.can_apply_discount pct = true ↔
      (0 ≤ pct ∧ pct ≤ 50 ∧
        1 / 100 ≤ it.unit_price - it.unit_price * (pct / 100))) := by
  refine ⟨?_, ?_, ?_⟩
  · unfold OrderItem.apply_discount
    split_ifs with h1 h2
    · simp [h1]
    · simp [OrderItem.MAX_DISCOUNT_PERCENTAGE] at h2
      simp [h1, h2]
    · simp only [OrderItem.MAX_DISCOUNT_PERCENTAGE] at h2
      simp [h1, h2]
  · intro h1 h2
    unfold OrderItem.apply_discount
    rw [if_neg (not_lt.2 h1),
      if_neg (by simp only [OrderItem.MAX_DISCOUNT_PERCENTAGE]; exact not_lt.2 h2)]
    have harith : it.unit_price - it.unit_price * (pct / 100) =
        it.unit_price * (1 - pct / 100) := by ring
    have hmax : ∀ a b : ℚ, (if a < b then b else a) = max a b := by
      intro a b
      split_ifs with h
      · exact (max_eq_right h.le).symm
      · exact (max_eq_left (not_lt.1 h)).symm
    simp only [OrderItem.MIN_UNIT_PRICE, harith, hmax]
  · unfold OrderItem.can_apply_discount
    split_ifs with h1
    · simp only [OrderItem.MAX_DISCOUNT_PERCENTAGE] at h1
      constructor
      · intro hc; exact absurd hc (by simp)
      · intro hc
        exfalso
        rcases h1 with h | h
        · exact absurd hc.1 (not_le.2 h)
        · exact absurd hc.2.1 (not_le.2 h)
    · simp only [OrderItem.MAX_DISCOUNT_PERCENTAGE] at h1
      push_neg at h1
      simp only [decide_eq_true_eq, ge_iff_le]
      constructor
      · intro hc; exact ⟨h1.1, h1.2, hc⟩
      · intro hc; exact hc.2.2

/-- Witness for C7 at a concrete item and percentage. -/
theorem apply_discount_spec_w :
    OrderItem.apply_discount itemW1 10 =
      some { itemW1 with
        unit_price := round2 (max (itemW1.unit_price * (1 - 10 / 100)) (1 / 100)) } :=
  (apply_discount_spec itemW1 10).2.1 (by norm_num) (by norm_num)

/-- C1 (code bug): for a stored cancellable order the service first cancels
and saves the order through the entity, then delegates to
update_order_status, which reloads the now-CANCELLED order and rejects the
CANCELLED to CANCELLED transition; the raised error is swallowed, so
cancel_order returns False although the order is left CANCELLED in the
repository, and no cancellation notification is sent and no reservation is
released — contrary to the claimed success/notification/release behavior. -/
theorem cancel_order_cancellable_bug (s : SysState) (oid : String)
    (order : Order) (now : Nat)
    (hord : lookupA s.orders oid = some order) (hid : order.id = oid)
    (hcan : order.can_be_cancelled = true) :
    (cancel_order s oid now).2 = false ∧
    (cancel_order s oid now).1.orders =
      saveOrder s.orders { order with status := .cancelled, updated_at := now } ∧
    (cancel_order s oid now).1.notifs = s.notifs ∧
    (cancel_order s oid now).1.inventory = s.inventory := by
  have hstat : order.status = .pending ∨ order.status = .confirmed := by
    unfold Order.can_be_cancelled at hcan
    simpa using of_decide_eq_true hcan
  have hvalid : Order.is_valid_status_transition order.status .cancelled = true := by
    rcases hstat with h | h <;>
      simp [Order.is_valid_status_transition, h]
  have hcancel : order.cancel now =
      some { order with status := .cancelled, updated_at := now } := by
    unfold Order.cancel Order.update_status
    rw [if_pos hcan, if_pos hvalid]
  have hlook : lookupA
      (saveOrder s.orders { order with status := .cancelled, updated_at := now })
      oid = some { order with status := .cancelled, updated_at := now } := by
    unfold saveOrder
    rw [lookupA_dinsert]
    simp [hid]
  have hstep : ({ order with status := .cancelled, updated_at := now } : Order).update_status
      .cancelled now = none := by
    unfold Order.update_status
    rw [if_neg]
    simp [Order.is_valid_status_transition]
  have hupd : ∃ e, update_order_status
      { s with orders :=
          saveOrder s.orders { order with status := .cancelled, updated_at := now } }
      oid .cancelled now =
      ({ s with orders :=
          saveOrder s.orders { order with status := .cancelled, updated_at := now } },
        .error e) := by
    unfold update_order_status
    simp only [hlook]
    by_cases hcust : order.customer_id ∈ s.customers
    · rw [if_pos hcust]
      simp only [hstep]
      exact ⟨"Failed to update order status", rfl⟩
    · rw [if_neg hcust]
      exact ⟨"Customer not found", rfl⟩
  obtain ⟨e, hupd⟩ := hupd
  unfold cancel_order
  rw [hord]
  simp only [hcan, Bool.true_eq_false, if_false, hcancel]
  simp only [saveOrder] at hupd ⊢
  rw [hupd]
  simp

/-- Witness for C1: a stored PENDING order with its customer present. The
call returns False, stores the order as CANCELLED, sends nothing and
releases nothing. -/
theorem cancel_order_cancellable_bug_w :
    (cancel_order stateW "o1" 5).2 = false ∧
    (cancel_order stateW "o1" 5).1.orders =
      saveOrder stateW.orders { orderW with status := .cancelled, updated_at := 5 } ∧
    (cancel_order stateW "o1" 5).1.notifs = stateW.notifs ∧
    (cancel_order stateW "o1" 5).1.inventory = stateW.inventory :=
  cancel_order_cancellable_bug stateW "o1" orderW 5
    (by simp [stateW, lookupA]) rfl (by decide)

/-- C8: the total price of any validly constructed item is the rounded
product of quantity and unit price, the total amount of any order is the sum
of its items' total prices, and the concrete two-line order of Scenario A
(2 at 12.99 plus 1 at 10.50) totals 36.48. -/
theorem total_price_total_amount_spec :
    (∀ pid pname qty price it,
      OrderItem.build pid pname qty price = some it →
      it.total_price = round2 (it.quantity * it.unit_price)) ∧
    (∀ o : Order, o.total_amount = (o.items.map OrderItem.total_price).sum) ∧
    Order.total_amount ⟨"oA", "cA", [itemW1, itemW2], .pending, 0, 0, none⟩ =
      3648 / 100 := by
  refine ⟨fun _ _ _ _ _ _ => rfl, fun _ => rfl, ?_⟩
  norm_num [Order.total_amount, OrderItem.total_price, round2, itemW1, itemW2]

/-- Witness for C8: the first conjunct applied to a concretely built item. -/
theorem total_price_total_amount_spec_w :
    OrderItem.total_price ⟨"p1", "n1".trim, 2, 1299 / 100⟩ =
      round2 ((⟨"p1", "n1".trim, 2, 1299 / 100⟩ : OrderItem).quantity *
        (⟨"p1", "n1".trim, 2, 1299 / 100⟩ : OrderItem).unit_price) :=
  total_price_total_amount_spec.1 "p1" "n1" 2 (1299 / 100) _
    (by
      norm_num [OrderItem.build, OrderItem.MIN_QUANTITY,
        OrderItem.MAX_QUANTITY, OrderItem.MIN_UNIT_PRICE]
      refine ⟨by simp, fun h => ?_⟩
      simp at h)

/-- C4 counterexample: with a stored CONFIRMED order and an available
product, add_item_to_order reserves the quantity, then the entity mutation
raises (the order is not PENDING), the exception is swallowed and False is
returned — but the reservation is never released, so available inventory has
changed across a failing call. -/
theorem add_item_failure_changes_inventory_cex :
    (add_item_to_order stateX "o2" "p1" 1 5).2 = false ∧
    getQty (add_item_to_order stateX "o2" "p1" 1 5).1.inventory "p1" ≠
      getQty stateX.inventory "p1" := by
  constructor
  · simp [add_item_to_order, stateX, orderX, productW1, lookupA,
      check_product_availability, getQty, DEFAULT_INVENTORY_LEVEL,
      reserve_products, setQty, dinsert, Order.add_item]
  · simp [add_item_to_order, stateX, orderX, productW1, lookupA,
      check_product_availability, getQty, DEFAULT_INVENTORY_LEVEL,
      reserve_products, setQty, dinsert, Order.add_item]

/-- C2: create_order is all-or-nothing with respect to reservation. If any
requested line's product is missing, marked unavailable, or lacks sufficient
inventory, the call fails with the state exactly as before (in particular no
reservation for earlier lines); if every line passes its checks (with the
product repository keyed by product id, pairwise distinct products, a
stored customer with a nonempty id, and a nonempty request of at most 50
lines), the call succeeds and the single reservation covers every
product/quantity pair, decrementing exactly the requested quantities. -/
theorem create_order_all_or_nothing (s : SysState) (cid : String)
    (lines : List (String × ℤ)) (notes : Option String) (now : Nat)
    (fresh : String) :
    ((∃ l ∈ lines, lineFails s l) →
      ∃ e, create_order s cid lines notes now fresh = (s, .error e)) ∧
    ((∀ k p, lookupA s.products k = some p → p.id = k) →
      (∀ l ∈ lines, linePasses s l) →
      (lines.map Prod.fst).Nodup →
      cid ∈ s.customers → ¬cid = "" → lines ≠ [] →
      lines.length ≤ Order.MAX_ITEMS_PER_ORDER →
      ∃ s1 order, create_order s cid lines notes now fresh = (s1, .ok order) ∧
        (∀ l ∈ lines, getQty s1.inventory l.1 = getQty s.inventory l.1 - l.2) ∧
        (∀ k, k ∉ lines.map Prod.fst →
          getQty s1.inventory k = getQty s.inventory k)) := by
  constructor
  · rintro ⟨l, hl, hfail⟩
    by_cases hmem : cid ∈ s.customers
    · have hne : lines.isEmpty = false := by
        cases lines
        · simp at hl
        · rfl
      obtain ⟨e, he⟩ :=
        buildLines_error_of_fails s lines ⟨l, hl, hfail⟩ [] []
      refine ⟨e, ?_⟩
      unfold create_order
      rw [if_pos hmem, if_neg (by simp [hne])]
      simp only [he]
    · exact ⟨"Customer not found", by unfold create_order; rw [if_neg hmem]⟩
  · intro hkeys hpass hnd hmem hcid hne hlen
    obtain ⟨items, hbl, hmap⟩ := buildLines_all_pass s hkeys lines hpass [] []
    simp only [List.nil_append] at hbl
    have hfold : items.foldl (fun m it => dinsert m it.product_id it.quantity)
        [] = lines := by
      have h1 : items.foldl (fun m it => dinsert m it.product_id it.quantity)
          [] = (items.map fun it => (it.product_id, it.quantity)).foldl
            (fun m kv => dinsert m kv.1 kv.2) [] := by
        rw [List.foldl_map]
      rw [h1, hmap, foldl_dinsert_nodup lines [] hnd (by simp [keysA])]
      simp
    rw [hfold] at hbl
    have hall : lines.all (fun kv => getQty s.inventory kv.1 ≥ kv.2) = true := by
      rw [List.all_eq_true]
      intro l hl
      obtain ⟨p, hp, -, -, -, -, -, -, hinv⟩ := hpass l hl
      have hpid : p.id = l.1 := hkeys l.1 p hp
      rw [hpid] at hinv
      exact decide_eq_true hinv
    have hlines_len : items.length = lines.length := by
      rw [← hmap, List.length_map]
    have hcreate : create_order s cid lines notes now fresh =
        ({ s with
            inventory := (reserve_products s.inventory lines).2,
            orders := saveOrder s.orders
              ⟨fresh, cid, items, .pending, now, now, notes⟩ },
          .ok ⟨fresh, cid, items, .pending, now, now, notes⟩) := by
      unfold create_order
      rw [if_pos hmem, if_neg (by simp [List.isEmpty_iff, hne])]
      simp only [hbl]
      rw [if_neg (by simp [reserve_fst_true s.inventory lines hall])]
      rw [if_neg (by push_neg; exact ⟨hcid, by omega⟩)]
    refine ⟨_, _, hcreate, ?_, ?_⟩
    · intro l hl
      simp only []
      rw [getQty_reserve_of_all s.inventory lines l.1 hnd hall]
      have hlook : lookupA lines l.1 = some l.2 := by
        apply lookupA_mem_nodup lines l.1 l.2 hnd
        simpa using hl
      rw [hlook]
      rfl
    · intro k hk
      simp only []
      rw [getQty_reserve_of_all s.inventory lines k hnd hall]
      rw [lookupA_eq_none_of_not_mem lines k (by simpa [keysA] using hk)]
      simp

/-- Witness for C2: in the example state, a request whose second line asks
for more than the available stock fails leaving the state untouched, and the
two-line Scenario A request succeeds, decrementing both products. -/
theorem create_order_all_or_nothing_w :
    (∃ e, create_order stateW "c1" [("p1", 2), ("p2", 101)] none 7 "onew" =
      (stateW, .error e)) ∧
    (∃ s1 order,
      create_order stateW "c1" [("p1", 2), ("p2", 1)] none 7 "onew" =
        (s1, .ok order) ∧
      (∀ l ∈ [("p1", (2 : ℤ)), ("p2", 1)],
        getQty s1.inventory l.1 = getQty stateW.inventory l.1 - l.2) ∧
      (∀ k, k ∉ [("p1", (2 : ℤ)), ("p2", 1)].map Prod.fst →
        getQty s1.inventory k = getQty stateW.inventory k)) := by
  constructor
  · exact (create_order_all_or_nothing stateW "c1" [("p1", 2), ("p2", 101)]
      none 7 "onew").1
      ⟨("p2", 101), by simp, by
        simp [lineFails, stateW, lookupA, productW2, getQty,
          DEFAULT_INVENTORY_LEVEL]⟩
  · exact (create_order_all_or_nothing stateW "c1" [("p1", 2), ("p2", 1)]
      none 7 "onew").2
      (by
        intro k p hp
        simp only [stateW, lookupA] at hp
        by_cases h1 : "p1" = k
        · rw [if_pos h1] at hp
          injection hp with hp
          rw [← hp, ← h1]
          rfl
        · rw [if_neg h1] at hp
          by_cases h2 : "p2" = k
          · rw [if_pos h2] at hp
            injection hp with hp
            rw [← hp, ← h2]
            rfl
          · rw [if_neg h2] at hp
            exact absurd hp (by simp))
      (by
        intro l hl
        simp only [List.mem_cons, List.not_mem_nil, or_false] at hl
        rcases hl with rfl | rfl
        · exact ⟨productW1, by simp [stateW, lookupA, productW1], rfl,
            by norm_num, by norm_num, by simp [productW1], by simp [productW1],
            by norm_num [productW1, OrderItem.MIN_UNIT_PRICE],
            by norm_num [productW1, stateW, getQty, lookupA,
              DEFAULT_INVENTORY_LEVEL]⟩
        · exact ⟨productW2, by simp [stateW, lookupA, productW2], rfl,
            by norm_num, by norm_num, by simp [productW2], by simp [productW2],
            by norm_num [productW2, OrderItem.MIN_UNIT_PRICE],
            by norm_num [productW2, stateW, getQty, lookupA,
              DEFAULT_INVENTORY_LEVEL]⟩)
      (by simp) (by simp [stateW]) (by simp) (by simp)
      (by simp [Order.MAX_ITEMS_PER_ORDER])

/-- C6: update_order_status to CANCELLED, on a stored order with an existing
customer whose current status allows the transition, succeeds and sends the
cancellation notification (after the generic status update notification),
and releases the reservation for every item exactly when the previous status
was PENDING or CONFIRMED — from PREPARING the inventory is untouched — while
from READY the transition is rejected with an error. -/
theorem update_order_status_cancelled_spec (s : SysState) (oid : String)
    (order : Order) (now : Nat)
    (hord : lookupA s.orders oid = some order)
    (hcust : order.customer_id ∈ s.customers) :
    (Order.is_valid_status_transition order.status .cancelled = true →
      (update_order_status s oid .cancelled now).2 = .ok true ∧
      (update_order_status s oid .cancelled now).1.notifs =
        s.notifs ++ [.statusUpdate order.id, .orderCancelled order.id] ∧
      ((order.status = .pending ∨ order.status = .confirmed) →
        ∀ pid, getQty (update_order_status s oid .cancelled now).1.inventory pid =
          getQty s.inventory pid + (lookupA (itemsDict order.items) pid).getD 0) ∧
      (order.status = .preparing →
        (update_order_status s oid .cancelled now).1.inventory = s.inventory)) ∧
    (order.status = .ready →
      (update_order_status s oid .cancelled now).2 =
        .error "Failed to update order status") := by
  constructor
  · intro hvalid
    have hupd : order.update_status .cancelled now =
        some { order with status := .cancelled, updated_at := now } := by
      unfold Order.update_status
      rw [if_pos hvalid]
    unfold update_order_status
    simp only [hord]
    rw [if_pos hcust]
    simp only [hupd,
      show (OrderStatus.cancelled = OrderStatus.delivered) = False by simp,
      show (OrderStatus.cancelled = OrderStatus.cancelled) = True by simp,
      if_true, if_false]
    by_cases hpc : order.status = .pending ∨ order.status = .confirmed
    · rw [if_pos hpc]
      refine ⟨rfl, by simp, fun _ pid => ?_, fun hprep => ?_⟩
      · simp only []
        rw [getQty_release s.inventory (itemsDict order.items) pid
          (nodup_keysA_itemsDict order.items)]
      · exfalso
        rcases hpc with h | h <;> rw [h] at hprep <;> exact absurd hprep (by simp)
    · rw [if_neg hpc]
      refine ⟨rfl, by simp, fun hpc2 => absurd hpc2 hpc, fun _ => rfl⟩
  · intro hready
    have hupd2 : order.update_status .cancelled now = none := by
      unfold Order.update_status
      rw [if_neg]
      rw [hready]
      simp [Order.is_valid_status_transition]
    unfold update_order_status
    simp only [hord]
    rw [if_pos hcust]
    simp only [hupd2]

/-- Witness for C6: cancelling the stored PENDING example order succeeds,
appends the status-update and cancellation notifications, and restores the
reserved quantity of its first product. -/
theorem update_order_status_cancelled_spec_w :
    (update_order_status stateW "o1" .cancelled 5).2 = .ok true ∧
    (update_order_status stateW "o1" .cancelled 5).1.notifs =
      stateW.notifs ++ [.statusUpdate orderW.id, .orderCancelled orderW.id] ∧
    getQty (update_order_status stateW "o1" .cancelled 5).1.inventory "p1" =
      getQty stateW.inventory "p1" +
        (lookupA (itemsDict orderW.items) "p1").getD 0 := by
  have W := (update_order_status_cancelled_spec stateW "o1" orderW 5
    (by simp [stateW, lookupA]) (by simp [stateW, orderW])).1 (by decide)
  exact ⟨W.1, W.2.1, W.2.2.1 (Or.inl rfl) "p1"⟩

/-- C3: when payment fails, confirm_order on a freshly created order (stored
PENDING, customer existing) returns failure, leaves the stored orders — and
hence the PENDING status — unchanged, sends nothing, and releases the
reservation for every item, restoring the inventory of every product to its
level before the order was created. -/
theorem confirm_fail_compensates (s : SysState) (cid : String)
    (lines : List (String × ℤ)) (notes : Option String) (now now2 : Nat)
    (fresh : String) (s1 : SysState) (order : Order)
    (hc : create_order s cid lines notes now fresh = (s1, .ok order)) :
    (confirm_order s1 order.id false now2).2 = .ok false ∧
    (confirm_order s1 order.id false now2).1.orders = s1.orders ∧
    lookupA (confirm_order s1 order.id false now2).1.orders order.id =
      some order ∧
    order.status = .pending ∧
    (confirm_order s1 order.id false now2).1.notifs = s1.notifs ∧
    ∀ pid, getQty (confirm_order s1 order.id false now2).1.inventory pid =
      getQty s.inventory pid := by
  obtain ⟨hmem, hcid, items, pq, hbl, hall, horder, hs1⟩ :=
    create_order_ok s cid lines notes now fresh s1 order hc
  obtain ⟨hdict, hnodup⟩ := itemsDict_of_create s lines items pq hbl
  have hlook : lookupA s1.orders order.id = some order := by
    rw [hs1]
    show lookupA (saveOrder s.orders order) order.id = some order
    unfold saveOrder
    rw [lookupA_dinsert]
    simp
  have hpend : order.status = .pending := by rw [horder]
  have hcust2 : order.customer_id ∈ s1.customers := by
    rw [hs1]
    show order.customer_id ∈ s.customers
    rw [horder]
    exact hmem
  have hconf := confirm_order_fail_eq s1 order.id order now2 hlook hpend hcust2
  rw [hconf]
  refine ⟨rfl, rfl, hlook, hpend, rfl, fun pid => ?_⟩
  show getQty (release_products s1.inventory (itemsDict order.items)).2 pid =
    getQty s.inventory pid
  have hitems : order.items = items := by rw [horder]
  rw [hitems, hdict]
  rw [getQty_release s1.inventory pq pid hnodup]
  have hsinv : s1.inventory = (reserve_products s.inventory pq).2 := by
    rw [hs1]
  rw [hsinv, getQty_reserve_of_all s.inventory pq pid hnodup hall]
  cases lookupA pq pid <;> simp

/-- Witness for C3: creating the Scenario A order in the example state and
confirming it with a failing payment restores the inventory of product p1 to
its pre-creation level. -/
theorem confirm_fail_compensates_w :
    (confirm_order stateC1 orderC1.id false 8).2 = .ok false ∧
    (confirm_order stateC1 orderC1.id false 8).1.orders = stateC1.orders ∧
    lookupA (confirm_order stateC1 orderC1.id false 8).1.orders orderC1.id =
      some orderC1 ∧
    orderC1.status = .pending ∧
    (confirm_order stateC1 orderC1.id false 8).1.notifs = stateC1.notifs ∧
    getQty (confirm_order stateC1 orderC1.id false 8).1.inventory "p1" =
      getQty stateW.inventory "p1" := by
  have W := confirm_fail_compensates stateW "c1" [("p1", 2), ("p2", 1)] none
    7 8 "onew" stateC1 orderC1 create_eval
  exact ⟨W.1, W.2.1, W.2.2.1, W.2.2.2.1, W.2.2.2.2.1, W.2.2.2.2.2 "p1"⟩

/-- C9: a create_order request with two lines for the same product (both
passing every check) stores an order with a separate OrderItem per line —
quantities are not merged — while the product_quantities dict handed to the
reservation contains the product once, with the quantity of the last line
only, so the reserved amount (the last quantity) is strictly less than the
total ordered quantity. -/
theorem create_order_duplicate_lines (s : SysState) (cid p : String)
    (q1 q2 : ℤ) (notes : Option String) (now : Nat) (fresh : String)
    (product : Product)
    (hkeys : ∀ k pr, lookupA s.products k = some pr → pr.id = k)
    (hmem : cid ∈ s.customers) (hcid : ¬cid = "") (hp0 : p ≠ "")
    (hp : lookupA s.products p = some product)
    (hav : product.available = true) (hname : product.name ≠ "")
    (hprice : OrderItem.MIN_UNIT_PRICE ≤ product.price)
    (hq1 : 0 < q1) (hq1' : q1 ≤ 99) (hq2 : 0 < q2) (hq2' : q2 ≤ 99)
    (hinv1 : q1 ≤ getQty s.inventory p) (hinv2 : q2 ≤ getQty s.inventory p) :
    ∃ s1 order,
      create_order s cid [(p, q1), (p, q2)] notes now fresh = (s1, .ok order) ∧
      order.items.map (fun it => (it.product_id, it.quantity)) =
        [(p, q1), (p, q2)] ∧
      buildLines s [(p, q1), (p, q2)] [] [] = .ok (order.items, [(p, q2)]) ∧
      getQty s1.inventory p = getQty s.inventory p - q2 ∧
      (∀ k, k ≠ p → getQty s1.inventory k = getQty s.inventory k) ∧
      q2 < q1 + q2 := by
  have hpid : product.id = p := hkeys p product hp
  have hpass : ∀ l ∈ [(p, q1), (p, q2)], linePasses s l := by
    intro l hl
    simp only [List.mem_cons, List.not_mem_nil, or_false] at hl
    rcases hl with rfl | rfl
    · exact ⟨product, hp, hav, hq1, hq1', by rw [hpid]; exact hp0, hname,
        hprice, by rw [hpid]; exact hinv1⟩
    · exact ⟨product, hp, hav, hq2, hq2', by rw [hpid]; exact hp0, hname,
        hprice, by rw [hpid]; exact hinv2⟩
  obtain ⟨items, hbl, hmap⟩ :=
    buildLines_all_pass s hkeys [(p, q1), (p, q2)] hpass [] []
  simp only [List.nil_append] at hbl
  have hfold : items.foldl (fun m it => dinsert m it.product_id it.quantity)
      [] = [(p, q2)] := by
    have h1 : items.foldl (fun m it => dinsert m it.product_id it.quantity)
        [] = (items.map fun it => (it.product_id, it.quantity)).foldl
          (fun m kv => dinsert m kv.1 kv.2) [] := by
      rw [List.foldl_map]
    rw [h1, hmap]
    simp [dinsert]
  rw [hfold] at hbl
  have hres : reserve_products s.inventory [(p, q2)] =
      (true, setQty s.inventory p (getQty s.inventory p - q2)) := by
    unfold reserve_products
    rw [if_pos]
    · simp
    · simp only [List.all_cons, List.all_nil, Bool.and_true]
      exact decide_eq_true (by omega)
  have hlen : items.length = 2 := by
    have := congrArg List.length hmap
    simpa using this
  have hcreate : create_order s cid [(p, q1), (p, q2)] notes now fresh =
      ({ s with
          inventory := setQty s.inventory p (getQty s.inventory p - q2),
          orders := saveOrder s.orders
            ⟨fresh, cid, items, .pending, now, now, notes⟩ },
        .ok ⟨fresh, cid, items, .pending, now, now, notes⟩) := by
    unfold create_order
    rw [if_pos hmem, if_neg (by simp)]
    simp only [hbl, hres]
    rw [if_neg (by simp)]
    rw [if_neg (by
      push_neg
      exact ⟨hcid, by simp [Order.MAX_ITEMS_PER_ORDER, hlen]⟩)]
  refine ⟨_, _, hcreate, hmap, hbl, ?_, ?_, by omega⟩
  · show getQty (setQty s.inventory p (getQty s.inventory p - q2)) p =
      getQty s.inventory p - q2
    rw [getQty_setQty, if_pos rfl]
  · intro k hk
    show getQty (setQty s.inventory p (getQty s.inventory p - q2)) k =
      getQty s.inventory k
    rw [getQty_setQty, if_neg (fun hq => hk hq.symm)]

/-- Witness for C9: requesting p1 twice (quantities 2 and 3) in the example
state stores two separate items while reserving only the last quantity. -/
theorem create_order_duplicate_lines_w :
    ∃ s1 order,
      create_order stateW "c1" [("p1", 2), ("p1", 3)] none 7 "onew" =
        (s1, .ok order) ∧
      order.items.map (fun it => (it.product_id, it.quantity)) =
        [("p1", 2), ("p1", 3)] ∧
      buildLines stateW [("p1", 2), ("p1", 3)] [] [] =
        .ok (order.items, [("p1", 3)]) ∧
      getQty s1.inventory "p1" = getQty stateW.inventory "p1" - 3 ∧
      (∀ k, k ≠ "p1" → getQty s1.inventory k = getQty stateW.inventory k) ∧
      (3 : ℤ) < 2 + 3 :=
  create_order_duplicate_lines stateW "c1" "p1" 2 3 none 7 "onew" productW1
    stateW_products_keyed
    (by simp [stateW]) (by simp) (by simp)
    (by simp [stateW, lookupA]) rfl (by simp [productW1])
    (by norm_num [productW1, OrderItem.MIN_UNIT_PRICE])
    (by norm_num) (by norm_num) (by norm_num) (by norm_num)
    (by norm_num [stateW, getQty, lookupA, DEFAULT_INVENTORY_LEVEL])
    (by norm_num [stateW, getQty, lookupA, DEFAULT_INVENTORY_LEVEL])

/-- C10: confirm_order with a failing payment releases the item quantities
unconditionally on every call, with no record of whether a reservation is
still held: after n failed confirmations of the same stored PENDING order,
each product's available quantity has been increased n times by the item
quantity; composed with order creation, from the second failed confirmation
onwards the available inventory strictly exceeds the pre-reservation
level. -/
theorem confirm_fail_repeated_release :
    (∀ (n : ℕ) (s : SysState) (oid : String) (order : Order) (now : Nat),
      lookupA s.orders oid = some order → order.status = .pending →
      order.customer_id ∈ s.customers →
      ∀ pid, getQty (confirmFailN oid now s n).inventory pid =
        getQty s.inventory pid +
          n * (lookupA (itemsDict order.items) pid).getD 0) ∧
    (∀ (s : SysState) (cid p : String) (q : ℤ) (notes : Option String)
        (now now2 : ℕ) (fresh : String) (s1 : SysState) (order : Order)
        (n : ℕ),
      create_order s cid [(p, q)] notes now fresh = (s1, .ok order) →
      (∀ k pr, lookupA s.products k = some pr → pr.id = k) →
      0 < q → 2 ≤ n →
      getQty s.inventory p <
        getQty (confirmFailN order.id now2 s1 n).inventory p) := by
  refine ⟨confirmFailN_inventory, ?_⟩
  intro s cid p q notes now now2 fresh s1 order n hc hkeys hq hn
  obtain ⟨hmem, hcid, items, pq, hbl, hall, horder, hs1⟩ :=
    create_order_ok s cid [(p, q)] notes now fresh s1 order hc
  simp only [buildLines] at hbl
  split at hbl
  · exact absurd hbl (by simp)
  · rename_i product hp
    split_ifs at hbl with h1 h2 h3
    split at hbl
    · exact absurd hbl (by simp)
    · rename_i item hb
      simp only [buildLines, Except.ok.injEq, Prod.mk.injEq] at hbl
      obtain ⟨hitems, hpq⟩ := hbl
      obtain ⟨hit, -⟩ := build_eq_some _ _ _ _ _ hb
      have hpid : product.id = p := hkeys p product hp
      have hitems' : items = [item] := by simpa using hitems.symm
      have hpq' : pq = [(p, q)] := by
        rw [← hpq]
        simp [dinsert, hpid]
      have hdict : itemsDict order.items = [(p, q)] := by
        rw [horder]
        show itemsDict items = [(p, q)]
        rw [hitems']
        simp [itemsDict, dinsert, hit, hpid]
      rw [hpq'] at hall
      have hge : getQty s.inventory p ≥ q := by
        simp only [List.all_cons, List.all_nil, Bool.and_true] at hall
        exact of_decide_eq_true hall
      have hs1inv : getQty s1.inventory p = getQty s.inventory p - q := by
        rw [hs1]
        show getQty (reserve_products s.inventory pq).2 p = _
        rw [hpq']
        rw [getQty_reserve_of_all s.inventory [(p, q)] p
          (by simp [keysA])
          (by simp only [List.all_cons, List.all_nil, Bool.and_true]
              exact decide_eq_true hge)]
        simp [lookupA]
      have hord1 : lookupA s1.orders order.id = some order := by
        rw [hs1]
        show lookupA (saveOrder s.orders order) order.id = some order
        unfold saveOrder
        rw [lookupA_dinsert]
        simp
      have hpend : order.status = .pending := by rw [horder]
      have hcust1 : order.customer_id ∈ s1.customers := by
        rw [hs1]
        show order.customer_id ∈ s.customers
        rw [horder]
        exact hmem
      have hA := confirmFailN_inventory n s1 order.id order now2 hord1
        hpend hcust1 p
      rw [hdict] at hA
      rw [show lookupA [(p, q)] p = some q from by simp [lookupA]] at hA
      simp only [Option.getD_some] at hA
      rw [hA, hs1inv]
      have h2q : (2 : ℤ) * q ≤ (n : ℤ) * q := by
        apply mul_le_mul_of_nonneg_right _ (le_of_lt hq)
        exact_mod_cast hn
      linarith

/-- Witness for C10: two failed confirmations of the stored example order
add twice the item quantity, and after creating a single-line order and
failing its confirmation twice the stock of p1 exceeds its original level. -/
theorem confirm_fail_repeated_release_w :
    getQty (confirmFailN "o1" 9 stateW 2).inventory "p1" =
      getQty stateW.inventory "p1" +
        2 * (lookupA (itemsDict orderW.items) "p1").getD 0 ∧
    getQty stateW.inventory "p1" <
      getQty (confirmFailN orderC2.id 8 stateC2 2).inventory "p1" :=
  ⟨confirm_fail_repeated_release.1 2 stateW "o1" orderW 9
      (by simp [stateW, lookupA]) rfl (by simp [stateW, orderW]) "p1",
   confirm_fail_repeated_release.2 stateW "c1" "p1" 2 none 7 8 "onew"
      stateC2 orderC2 2 create_eval_single stateW_products_keyed
      (by norm_num) (by norm_num)⟩

/-- C4 (amended): add_item_to_order and remove_item_from_order return False
rather than raising when the order or product cannot be found, leaving the
state untouched; but when the availability check and the reservation have
succeeded and the subsequent order mutation fails (for example because the
order is no longer PENDING), add_item_to_order returns False without
releasing the reservation it just made, leaving the product's available
quantity reduced by the requested amount. -/
theorem add_remove_item_failure_spec (s : SysState) (oid pid : String)
    (qty : ℤ) (now : Nat) :
    (lookupA s.orders oid = none →
      add_item_to_order s oid pid qty now = (s, false)) ∧
    (lookupA s.products pid = none →
      add_item_to_order s oid pid qty now = (s, false)) ∧
    (lookupA s.orders oid = none →
      remove_item_from_order s oid pid now = (s, false)) ∧
    (∀ order product, lookupA s.orders oid = some order →
      lookupA s.products pid = some product →
      qty ≤ getQty s.inventory pid →
      order.add_item product qty now = none →
      (add_item_to_order s oid pid qty now).2 = false ∧
      getQty (add_item_to_order s oid pid qty now).1.inventory pid =
        getQty s.inventory pid - qty ∧
      (add_item_to_order s oid pid qty now).1.orders = s.orders) := by
  refine ⟨?_, ?_, ?_, ?_⟩
  · intro h
    unfold add_item_to_order
    simp only [h]
  · intro h
    unfold add_item_to_order
    cases horder : lookupA s.orders oid
    · rfl
    · simp only [h]
  · intro h
    unfold remove_item_from_order
    simp only [h]
  · intro order product hord hprod hqty hadd
    have hchk : check_product_availability s.inventory pid qty = true := by
      unfold check_product_availability
      exact decide_eq_true hqty
    have hres : reserve_products s.inventory [(pid, qty)] =
        (true, setQty s.inventory pid (getQty s.inventory pid - qty)) := by
      unfold reserve_products
      rw [if_pos]
      · simp
      · simp only [List.all_cons, List.all_nil, Bool.and_true]
        exact decide_eq_true hqty
    have heq : add_item_to_order s oid pid qty now =
        ({ s with inventory :=
            setQty s.inventory pid (getQty s.inventory pid - qty) }, false) := by
      unfold add_item_to_order
      simp only [hord, hprod, hres]
      rw [if_neg (by simp [hchk])]
      rw [if_neg (by simp)]
      simp only [hadd]
    rw [heq]
    refine ⟨rfl, ?_, rfl⟩
    show getQty (setQty s.inventory pid (getQty s.inventory pid - qty)) pid =
      getQty s.inventory pid - qty
    rw [getQty_setQty, if_pos rfl]

/-- Witness for C4: on the CONFIRMED example order, adding one unit of p1
fails after reserving and leaves the inventory decremented. -/
theorem add_remove_item_failure_spec_w :
    (add_item_to_order stateX "o2" "p1" 1 5).2 = false ∧
    getQty (add_item_to_order stateX "o2" "p1" 1 5).1.inventory "p1" =
      getQty stateX.inventory "p1" - 1 ∧
    (add_item_to_order stateX "o2" "p1" 1 5).1.orders = stateX.orders :=
  (add_remove_item_failure_spec stateX "o2" "p1" 1 5).2.2.2 orderX productW1
    (by simp [stateX, lookupA]) (by simp [stateX, lookupA])
    (by norm_num [stateX, getQty, lookupA, DEFAULT_INVENTORY_LEVEL])
    (by simp [Order.add_item, orderX])

end Claims

end Hex
